import Mathlib

/-!
Verification development for the shell-mcp server: a shallow embedding of the
REPL session manager, the output collector and the security validator, with
theorems settling the specified properties.

The repository contains two parallel implementations of the session manager:
the one in `src/tools/repl-session.ts` (called the *simple* manager below,
paired with `utils/security.ts`'s `SecurityValidator`), and the one in
`commands/repl-session.ts` (called the *enhanced* manager below, paired with
`security/validator.js`'s `CommandValidator` and the `withTimeout` helper).
Both are embedded; JS strings are modelled as `String` with all operations
defined over the underlying character lists, JS `Map` as an insertion-ordered
association list, timers and stream events as explicit event traces, and
thrown exceptions as `Except`.
-/

namespace ShellMcp

/-- Whitespace characters stripped by JS `String.prototype.trim` (ASCII part). -/
def isJsWhitespace (c : Char) : Bool :=
  c == ' ' || c == '\t' || c == '\n' || c == '\x0d' || c == '\x0b' || c == '\x0c'

/-- JS `String.prototype.includes`: substring containment. -/
def strIncludes (s sub : String) : Bool := decide (sub.data <:+: s.data)

/-- JS `String.prototype.trim` on the character list. -/
def trimChars (l : List Char) : List Char :=
  ((l.dropWhile isJsWhitespace).reverse.dropWhile isJsWhitespace).reverse

/-- JS `String.prototype.trim`. -/
def jsTrim (s : String) : String := ⟨trimChars s.data⟩

/-- JS `String.prototype.toLowerCase`, restricted to the ASCII case mapping. -/
def jsToLower (s : String) : String := ⟨s.data.map Char.toLower⟩

/-- JS `command.split(' ')[0]`: the characters before the first space. -/
def baseCommandOf (s : String) : String := ⟨s.data.takeWhile (fun c => c != ' ')⟩

/-- Decimal digit character, as produced by JS number-to-string conversion. -/
def digitChar : Nat → Char
  | 0 => '0'
  | 1 => '1'
  | 2 => '2'
  | 3 => '3'
  | 4 => '4'
  | 5 => '5'
  | 6 => '6'
  | 7 => '7'
  | 8 => '8'
  | _ => '9'

/-- Fuel-based most-significant-first decimal digit list. -/
def natToStrAux : Nat → Nat → List Char
  | 0, _ => []
  | fuel + 1, n =>
    if n < 10 then [digitChar n]
    else natToStrAux fuel (n / 10) ++ [digitChar (n % 10)]

/-- Decimal digit list of a natural number, as JS template interpolation renders it. -/
def natChars (n : Nat) : List Char := natToStrAux (n + 1) n

/-- Decimal string of a natural number (JS `${n}` for a nonnegative integer). -/
def natToStr (n : Nat) : String := ⟨natChars n⟩

/-- Session id exactly as built by `startSession`:
`` `session_${++this.sessionCounter}_${Date.now()}` ``. -/
def mkSessionId (counter timestamp : Nat) : String :=
  "session_" ++ natToStr counter ++ "_" ++ natToStr timestamp

/-- Security configuration consumed by `SecurityValidator` (see `src/types`),
with the default values filled in by the constructor. -/
structure SecurityConfig where
  allowedCommands : Option (List String) := none
  blockedCommands : Option (List String) := none
  allowShellOperators : Bool := false
  allowFileOperations : Bool := false
  allowNetworkAccess : Bool := true
  maxTimeout : Option Nat := some 300
deriving Repr, DecidableEq

/-- Result value of `SecurityValidator.validateCommand`. -/
structure ValidationResult where
  valid : Bool
  reason : Option String := none
deriving Repr, DecidableEq

/-- Shell operators screened by `validateCommand` when `allowShellOperators` is off. -/
def dangerousOperators : List String :=
  ["&&", "||", ";", "|", ">", "<", ">>", "<<", "&", "$(", "`"]

/-- File-operation substrings screened when `allowFileOperations` is off. -/
def fileOperations : List String :=
  ["rm ", "del ", "rmdir", "mv ", "cp ", "copy ", "move "]

/-- Whitelist check at the end of `validateCommand`. -/
def checkAllowedCommands (cfg : SecurityConfig) (baseCommand : String) : ValidationResult :=
  match cfg.allowedCommands with
  | some allowed =>
    if allowed.length > 0 then
      if allowed.contains baseCommand then ⟨true, none⟩
      else ⟨false, some ("Command not in allowed list: " ++ baseCommand)⟩
    else ⟨true, none⟩
  | none => ⟨true, none⟩

/-- Blocklist check of `validateCommand` (any configured array, even empty,
is truthy in JS, so the branch is entered whenever the field is present). -/
def checkBlockedCommands (cfg : SecurityConfig) (baseCommand : String) : ValidationResult :=
  match cfg.blockedCommands with
  | some blocked =>
    if blocked.contains baseCommand then
      ⟨false, some ("Command is blocked: " ++ baseCommand)⟩
    else checkAllowedCommands cfg baseCommand
  | none => checkAllowedCommands cfg baseCommand

/-- Embedding of `SecurityValidator.validateCommand`. -/
def validateCommand (cfg : SecurityConfig) (command : String) : ValidationResult :=
  match (if cfg.allowShellOperators then none
         else dangerousOperators.find? (fun op => strIncludes command op)) with
  | some op => ⟨false, some ("Command contains potentially dangerous operator: " ++ op)⟩
  | none =>
    if strIncludes command "../" || strIncludes command "..\\" then
      ⟨false, some "Command contains directory traversal patterns"⟩
    else
      match (if cfg.allowFileOperations then none
             else fileOperations.find? (fun op => strIncludes (jsToLower command) op)) with
      | some op => ⟨false, some ("File operation not allowed: " ++ jsTrim op)⟩
      | none => checkBlockedCommands cfg (baseCommandOf command)

/-- Character class removed by the control-character regex in `sanitizeInput`. -/
def isStrippedCtl (c : Char) : Bool :=
  decide (c.toNat ≤ 0x08) || c.toNat == 0x0B || c.toNat == 0x0C ||
  (decide (0x0E ≤ c.toNat) && decide (c.toNat ≤ 0x1F)) || c.toNat == 0x7F

/-- Embedding of `SecurityValidator.sanitizeInput`: global removal of the
matched control characters. -/
def sanitizeInput (input : String) : String :=
  ⟨input.data.filter (fun c => !isStrippedCtl c)⟩

/-- Result value of the simple manager's send and receive operations. -/
structure CommandResult where
  success : Bool
  stdout : String
  stderr : String
  exitCode : Option Int := none
  error : Option String := none
deriving Repr, DecidableEq

/-- Session record of the simple manager (`tools/repl-session.ts`). -/
structure ReplSession where
  id : String
  processId : Nat
  isActive : Bool
  lastActivity : Nat
deriving Repr, DecidableEq

/-- REPL configuration of the simple manager (see `src/types`). -/
structure ReplConfig where
  command : String
  name : Option String := none
  args : Option (List String) := none
  timeout : Option Nat := none
  endMarkers : Option (List String) := none
deriving Repr, DecidableEq

/-- Observable actions issued to child processes. -/
inductive ProcEffect where
  | spawn (program : String) (args : List String) (shell : Bool)
  | write (processId : Nat) (text : String)
  | kill (processId : Nat) (signal : String)
  | endStdin (processId : Nat)
deriving Repr, DecidableEq

/-- JS `Map.get`. -/
def mapGet {α : Type} (m : List (String × α)) (k : String) : Option α :=
  (m.find? (fun e => e.1 == k)).map (fun e => e.2)

/-- JS `Map.set`: replace in place if the key exists, else append. -/
def mapSet {α : Type} (m : List (String × α)) (k : String) (v : α) :
    List (String × α) :=
  if m.any (fun e => e.1 == k) then
    m.map (fun e => if e.1 == k then (k, v) else e)
  else m ++ [(k, v)]

/-- JS `Map.delete`. -/
def mapDelete {α : Type} (m : List (String × α)) (k : String) : List (String × α) :=
  m.filter (fun e => e.1 != k)

/-- State of the simple `ReplSessionManager`: the session map and id counter. -/
structure ManagerState where
  sessions : List (String × ReplSession) := []
  sessionCounter : Nat := 0
deriving Repr, DecidableEq

/-- Result of `startSession` in the simple manager. -/
structure StartResult where
  sessionId : String
  success : Bool
  error : Option String := none
deriving Repr, DecidableEq

/-- Outcome triple of a simple-manager operation: the caller-visible result,
the successor state, and the process effects performed. -/
structure Outcome (α : Type) where
  result : α
  state : ManagerState
  effects : List ProcEffect
deriving Repr, DecidableEq

/-- Embedding of the simple `ReplSessionManager.startSession`: the id is
built from the pre-incremented counter and the clock (`now` stands for
`Date.now()`), the child is spawned with the argument list
`config.args ++ args` and `shell: false`, and the session is stored active. -/
def startSession (config : ReplConfig) (st : ManagerState) (args : List String)
    (now : Nat) : Outcome StartResult :=
  let counter := st.sessionCounter + 1
  let sessionId := mkSessionId counter now
  let commandArgs := config.args.getD [] ++ args
  let session : ReplSession :=
    { id := sessionId, processId := counter, isActive := true, lastActivity := now }
  { result := { sessionId := sessionId, success := true }
    state := { sessions := mapSet st.sessions sessionId session, sessionCounter := counter }
    effects := [ProcEffect.spawn config.command commandArgs false] }

/-- Embedding of the simple `ReplSessionManager.sendCommand`: one conflated
guard for a missing or inactive session, then the security validation, then
the sanitized write and the `lastActivity` update. -/
def sendCommand (secCfg : SecurityConfig) (st : ManagerState)
    (sessionId command : String) (now : Nat) : Outcome CommandResult :=
  match mapGet st.sessions sessionId with
  | none =>
    { result := { success := false, stdout := "", stderr := "",
                  error := some "Session not found or inactive" }
      state := st, effects := [] }
  | some session =>
    if session.isActive = false then
      { result := { success := false, stdout := "", stderr := "",
                    error := some "Session not found or inactive" }
        state := st, effects := [] }
    else
      let validation := validateCommand secCfg command
      if validation.valid = false then
        { result := { success := false, stdout := "", stderr := "",
                      error := some ("Security validation failed: " ++
                        validation.reason.getD "undefined") }
          state := st, effects := [] }
      else
        let touched : ReplSession := { session with lastActivity := now }
        { result := { success := true, stdout := "", stderr := "" }
          state := { st with sessions := mapSet st.sessions sessionId touched }
          effects := [ProcEffect.write session.processId (sanitizeInput command ++ "\n")] }

/-- Input events seen by the simple receive collector: stdout chunks, stderr
chunks, and the firing of the `setTimeout` timer. -/
inductive SEvent where
  | out (s : String)
  | err (s : String)
  | timerFire
deriving Repr, DecidableEq

/-- Mutable state closed over by the simple `receiveOutput` promise callback. -/
structure SCState where
  stdout : String := ""
  stderr : String := ""
  isResolved : Bool := false
  stdoutAttached : Bool := true
  stderrAttached : Bool := true
  timerActive : Bool := true
deriving Repr, DecidableEq

/-- One event step of the simple collector (`receiveOutput`). The marker test
is `text.includes(endMarker)` on the *incoming chunk*, not the accumulated
buffer; marker resolution clears the timer and detaches both handlers, while
the timeout path resolves without detaching either handler. -/
def scStep (endMarker : Option String) (st : SCState) :
    SEvent → SCState × Option CommandResult
  | SEvent.out s =>
    if st.stdoutAttached then
      let stdout' := st.stdout ++ s
      let hit := match endMarker with
        | some m => strIncludes s m
        | none => false
      if hit = true ∧ st.isResolved = false then
        ({ st with stdout := stdout', isResolved := true, timerActive := false,
                   stdoutAttached := false, stderrAttached := false },
         some { success := true, stdout := jsTrim stdout', stderr := jsTrim st.stderr })
      else ({ st with stdout := stdout' }, none)
    else (st, none)
  | SEvent.err s =>
    if st.stderrAttached then ({ st with stderr := st.stderr ++ s }, none)
    else (st, none)
  | SEvent.timerFire =>
    if st.timerActive = true ∧ st.isResolved = false then
      ({ st with isResolved := true, timerActive := false },
       some { success := true, stdout := jsTrim st.stdout, stderr := jsTrim st.stderr })
    else (st, none)

/-- Run of the simple collector over an event trace, recording the first
resolution of the promise. -/
def scRun (endMarker : Option String) (events : List SEvent) (st : SCState)
    (res : Option CommandResult) : SCState × Option CommandResult :=
  match events with
  | [] => (st, res)
  | e :: rest =>
    let p := scStep endMarker st e
    scRun endMarker rest p.1 (res <|> p.2)

/-- Embedding of the simple `ReplSessionManager.receiveOutput`: the conflated
session guard, then the collector run over the event trace of this call.
Returns the promise's value (`none` while unresolved) and the successor
state with `lastActivity` updated. -/
def receiveOutput (st : ManagerState) (sessionId : String)
    (endMarker : Option String) (events : List SEvent) (now : Nat) :
    Option CommandResult × ManagerState :=
  match mapGet st.sessions sessionId with
  | none => (some { success := false, stdout := "", stderr := "",
                    error := some "Session not found or inactive" }, st)
  | some session =>
    if session.isActive = false then
      (some { success := false, stdout := "", stderr := "",
              error := some "Session not found or inactive" }, st)
    else
      let touched : ReplSession := { session with lastActivity := now }
      ((scRun endMarker events {} none).2,
       { st with sessions := mapSet st.sessions sessionId touched })

/-- Result of the simple `closeSession`. -/
structure CloseResult where
  success : Bool
  error : Option String := none
deriving Repr, DecidableEq

/-- Embedding of the simple `ReplSessionManager.closeSession`: SIGTERM if the
session is still active, then removal from the map. -/
def closeSession (st : ManagerState) (sessionId : String) : Outcome CloseResult :=
  match mapGet st.sessions sessionId with
  | none => { result := { success := false, error := some "Session not found" },
              state := st, effects := [] }
  | some session =>
    { result := { success := true },
      state := { st with sessions := mapDelete st.sessions sessionId },
      effects := if session.isActive then
          [ProcEffect.kill session.processId "SIGTERM"] else [] }

/-- Embedding of the simple `listActiveSessions`. -/
def listActiveSessions (st : ManagerState) : List String :=
  ((st.sessions.map (fun e => e.2)).filter (fun s => s.isActive)).map (fun s => s.id)

/-- Iterated `startSession` calls from a state (extra arguments and clock
value per call). -/
def runStarts (config : ReplConfig) (inputs : List (List String × Nat))
    (st : ManagerState) : ManagerState :=
  inputs.foldl (fun s p => (startSession config s p.1 p.2).state) st

/-- Invariant tying registry entries to the id scheme: keys equal ids, every
id carries a counter component bounded by the manager counter, and ids are
pairwise distinct. -/
def SessionIdsOk (st : ManagerState) : Prop :=
  ((st.sessions.map (fun e => e.2.id)).Pairwise (fun a b => a ≠ b)) ∧
  (∀ e ∈ st.sessions, e.1 = e.2.id ∧
    ∃ k t, k ≤ st.sessionCounter ∧ e.2.id = mkSessionId k t)

/-- Result value of the enhanced manager's receive operations. -/
structure ReplResult where
  output : String
  error : Option String := none
  success : Bool
deriving Repr, DecidableEq

/-- Session record of the enhanced manager (`commands/repl-session.ts`);
`stdinAvailable` models whether `process.stdin` is non-null. -/
structure SessionE where
  id : String
  processId : Nat
  isActive : Bool
  stdinAvailable : Bool := true
  startTime : Nat := 0
deriving Repr, DecidableEq

/-- REPL configuration of the enhanced manager (`config/parser`). -/
structure ReplConfigE where
  command : String
  name : Option String := none
  startArgs : Option (List String) := none
  endArgs : Option (List String) := none
  timeout : Option Nat := none
deriving Repr, DecidableEq

/-- State of the enhanced manager. -/
structure ManagerStateE where
  sessions : List (String × SessionE) := []
  sessionCounter : Nat := 0
deriving Repr, DecidableEq

/-- Validation gate consumed by the enhanced manager
(`CommandValidator.validateCommand`); `.error reason` models a thrown
`SecurityError` with that message. The spec treats this gate as an external
collaborator consumed as a pure function. -/
abbrev CmdValidator := String → Except String Unit

/-- Embedding of the enhanced `getActiveSession`: distinct thrown messages
for a missing session versus an inactive one, and no side effect. -/
def getActiveSession (st : ManagerStateE) (sessionId : String) :
    Except String SessionE :=
  match mapGet st.sessions sessionId with
  | none => Except.error ("Session not found: " ++ sessionId)
  | some session =>
    if session.isActive = false then
      Except.error ("Session is not active: " ++ sessionId)
    else Except.ok session

/-- Embedding of the enhanced `sendCommand`: session guard, validation gate,
stdin-availability check, then the write. The `.ok` value is the effect list
of the performed write; a thrown error performs no write. -/
def sendCommandE (cv : CmdValidator) (st : ManagerStateE)
    (sessionId command : String) : Except String (List ProcEffect) :=
  match getActiveSession st sessionId with
  | Except.error e => Except.error e
  | Except.ok session =>
    match cv command with
    | Except.error reason => Except.error reason
    | Except.ok _ =>
      if session.stdinAvailable = false then
        Except.error "Session stdin is not available"
      else
        Except.ok [ProcEffect.write session.processId (command ++ "\n")]

/-- Input events seen by the enhanced collector: stdout and stderr chunks,
the process `close` event, and the firing of the fixed 1000 ms no-marker
timer. -/
inductive EEvent where
  | out (s : String)
  | err (s : String)
  | procClose (exitCode : Int)
  | fixedTimerFire
deriving Repr, DecidableEq

/-- Mutable state closed over by the enhanced `collectOutput` promise. -/
structure ECState where
  stdout : String := ""
  stderr : String := ""
  resolved : Bool := false
  dataAttached : Bool := true
  errorAttached : Bool := true
  closeAttached : Bool := true
deriving Repr, DecidableEq

/-- Embedding of the `stderr.trim() || undefined` idiom. -/
def trimOrNone (s : String) : Option String :=
  if jsTrim s = "" then none else some (jsTrim s)

/-- One event step of the enhanced collector (`collectOutput`). The marker
test (`checkEndCondition`) is on the *accumulated* stdout buffer; the
marker-found and process-close paths resolve without detaching any listener,
while the fixed no-marker timer detaches all three. -/
def ecStep (endMarker : Option String) (st : ECState) :
    EEvent → ECState × Option ReplResult
  | EEvent.out s =>
    if st.dataAttached then
      let stdout' := st.stdout ++ s
      let hit := match endMarker with
        | some m => strIncludes stdout' m
        | none => false
      if st.resolved = false ∧ hit = true then
        ({ st with stdout := stdout', resolved := true },
         some { output := jsTrim stdout', error := trimOrNone st.stderr,
                success := true })
      else ({ st with stdout := stdout' }, none)
    else (st, none)
  | EEvent.err s =>
    if st.errorAttached then ({ st with stderr := st.stderr ++ s }, none)
    else (st, none)
  | EEvent.procClose code =>
    if st.closeAttached = true ∧ st.resolved = false then
      ({ st with resolved := true },
       some { output := jsTrim st.stdout, error := trimOrNone st.stderr,
              success := code == 0 })
    else (st, none)
  | EEvent.fixedTimerFire =>
    match endMarker with
    | some _ => (st, none)
    | none =>
      if st.resolved = false then
        ({ st with resolved := true, dataAttached := false, errorAttached := false,
                   closeAttached := false },
         some { output := jsTrim st.stdout, error := trimOrNone st.stderr,
                success := true })
      else (st, none)

/-- Events during a `withTimeout(collectOutput ...)` run: inner collector
events interleaved with the outer timeout timer firing at `timeoutMs`. -/
inductive REvent where
  | inner (e : EEvent)
  | outerTimerFire
deriving Repr, DecidableEq

/-- Run of the enhanced collector under `withTimeout`: whichever of the inner
resolution and the outer timer comes first decides the caller-visible
outcome (`withTimeout` rejects with a `TimeoutError`); the inner machine
keeps running, and keeps its listeners, regardless. -/
def ecRun (endMarker : Option String) (timeoutMs : Nat) (events : List REvent)
    (st : ECState) (outcome : Option (Except String ReplResult)) :
    ECState × Option (Except String ReplResult) :=
  match events with
  | [] => (st, outcome)
  | REvent.inner e :: rest =>
    let p := ecStep endMarker st e
    ecRun endMarker timeoutMs rest p.1 (outcome <|> p.2.map Except.ok)
  | REvent.outerTimerFire :: rest =>
    ecRun endMarker timeoutMs rest st
      (outcome <|> some (Except.error
        ("REPL output timeout after " ++ natToStr timeoutMs ++ "ms")))

/-- Embedding of the enhanced `receiveOutput`: the session guard, then
`withTimeout(collectOutput(session, endMarker), timeoutMs, ...)` run over the
call's event trace. `none` means the call is still pending. -/
def receiveOutputE (st : ManagerStateE) (sessionId : String) (timeoutMs : Nat)
    (endMarker : Option String) (events : List REvent) :
    Option (Except String ReplResult) :=
  match getActiveSession st sessionId with
  | Except.error e => some (Except.error e)
  | Except.ok _ => (ecRun endMarker timeoutMs events {} none).2

/-- Shutdown-command loop inside the enhanced `closeSession`: sends each end
command in order, stopping at the first thrown error. Returns the write
effects performed and whether a command threw. -/
def sendEndCommands (cv : CmdValidator) (st : ManagerStateE) (sessionId : String) :
    List String → List ProcEffect × Bool
  | [] => ([], false)
  | cmd :: rest =>
    match sendCommandE cv st sessionId cmd with
    | Except.error _ => ([], true)
    | Except.ok effs =>
      let p := sendEndCommands cv st sessionId rest
      (effs ++ p.1, p.2)

/-- Embedding of the enhanced `closeSession`. A thrown shutdown-command error
jumps from the sending loop to the `catch` block, skipping the stdin close
and both kill steps; the `finally` block always removes the session from the
map. `exitsAfterTerm` models whether the process exits within the grace
delay after SIGTERM. -/
def closeSessionE (cv : CmdValidator) (cfg : ReplConfigE) (st : ManagerStateE)
    (sessionId : String) (args : List String) (exitsAfterTerm : Bool) :
    ManagerStateE × List ProcEffect :=
  match mapGet st.sessions sessionId with
  | none => (st, [])
  | some session =>
    let endCommands := cfg.endArgs.getD [] ++ args
    let p := if endCommands.length > 0 then sendEndCommands cv st sessionId endCommands
             else ([], false)
    let st' : ManagerStateE := { st with sessions := mapDelete st.sessions sessionId }
    if p.2 then (st', p.1)
    else
      let killEffs :=
        if session.isActive then
          ProcEffect.kill session.processId "SIGTERM" ::
            (if exitsAfterTerm then [] else [ProcEffect.kill session.processId "SIGKILL"])
        else []
      (st', p.1 ++ [ProcEffect.endStdin session.processId] ++ killEffs)

/-- Embedding of the enhanced `getActiveSessions`. -/
def getActiveSessionsE (st : ManagerStateE) : List String :=
  (st.sessions.filter (fun e => e.2.isActive)).map (fun e => e.1)

/-- Argument-validation loop of the enhanced `startSession`
(`allArgs.forEach` with names `arg_<index>`). -/
def validateArgsLoop (cvArg : String → String → Except String Unit) :
    List String → Nat → Except String Unit
  | [], _ => Except.ok ()
  | a :: rest, i =>
    match cvArg a ("arg_" ++ natToStr i) with
    | Except.error e => Except.error e
    | Except.ok _ => validateArgsLoop cvArg rest (i + 1)

/-- Embedding of the enhanced `startSession`. The counter is incremented
first; a validation throw aborts before any spawn; otherwise the child is
spawned with `startArgs ++ args` and `shell: false` and the session stored
active. If the process dies within the startup grace delay (`diesEarly`) the
call throws, with the session left in the map inactive. -/
def startSessionE (cv : CmdValidator) (cvArg : String → String → Except String Unit)
    (cfg : ReplConfigE) (st : ManagerStateE) (args : List String) (now : Nat)
    (diesEarly : Bool) : Except String String × ManagerStateE × List ProcEffect :=
  let counter := st.sessionCounter + 1
  let sessionId := mkSessionId counter now
  let allArgs := cfg.startArgs.getD [] ++ args
  let stc : ManagerStateE := { st with sessionCounter := counter }
  match cv cfg.command with
  | Except.error e => (Except.error e, stc, [])
  | Except.ok _ =>
    match validateArgsLoop cvArg allArgs 0 with
    | Except.error e => (Except.error e, stc, [])
    | Except.ok _ =>
      let session : SessionE :=
        { id := sessionId, processId := counter, isActive := !diesEarly,
          stdinAvailable := true, startTime := now }
      let st' : ManagerStateE :=
        { stc with sessions := mapSet stc.sessions sessionId session }
      let effs := [ProcEffect.spawn cfg.command allArgs false]
      if diesEarly then (Except.error "Failed to start REPL session", st', effs)
      else (Except.ok sessionId, st', effs)

end ShellMcp

namespace ShellMcp

theorem isStrippedCtl_iff (c : Char) :
    isStrippedCtl c = true ↔
      (c.toNat ≤ 8 ∨ c.toNat = 11 ∨ c.toNat = 12 ∨
        (14 ≤ c.toNat ∧ c.toNat ≤ 31) ∨ c.toNat = 127) := by
  simp only [isStrippedCtl, Bool.or_eq_true, Bool.and_eq_true, decide_eq_true_eq,
    beq_iff_eq]
  omega

theorem string_mk_data (s : String) : (⟨s.data⟩ : String) = s := rfl

/-- C10: `sanitizeInput` is idempotent; it keeps tab (9), newline (10) and
carriage return (13) in place, removes every character in the ranges
0x00–0x08, 0x0B–0x0C, 0x0E–0x1F and 0x7F, and returns any string containing
none of those removed characters unchanged. -/
theorem sanitizeInput_idempotent_and_selective (s : String) :
    sanitizeInput (sanitizeInput s) = sanitizeInput s
    ∧ (∀ c ∈ (sanitizeInput s).data,
        ¬ (c.toNat ≤ 8 ∨ c.toNat = 11 ∨ c.toNat = 12 ∨
            (14 ≤ c.toNat ∧ c.toNat ≤ 31) ∨ c.toNat = 127))
    ∧ (∀ c ∈ s.data, (c.toNat = 9 ∨ c.toNat = 10 ∨ c.toNat = 13) →
        c ∈ (sanitizeInput s).data)
    ∧ ((∀ c ∈ s.data,
          ¬ (c.toNat ≤ 8 ∨ c.toNat = 11 ∨ c.toNat = 12 ∨
              (14 ≤ c.toNat ∧ c.toNat ≤ 31) ∨ c.toNat = 127)) →
        sanitizeInput s = s) := by
  refine ⟨?_, ?_, ?_, ?_⟩
  · show (⟨((s.data.filter _).filter _ : List Char)⟩ : String) = _
    rw [List.filter_filter]
    simp [sanitizeInput]
  · intro c hc
    rw [← isStrippedCtl_iff]
    simp only [sanitizeInput, List.mem_filter] at hc
    simpa using hc.2
  · intro c hc hval
    simp only [sanitizeInput, List.mem_filter]
    refine ⟨hc, ?_⟩
    have : ¬ isStrippedCtl c = true := by
      rw [isStrippedCtl_iff]; omega
    simp [this]
  · intro hall
    show (⟨(s.data.filter _ : List Char)⟩ : String) = s
    have : s.data.filter (fun c => !isStrippedCtl c) = s.data := by
      rw [List.filter_eq_self]
      intro c hc
      have := hall c hc
      rw [← isStrippedCtl_iff] at this
      simp [this]
    rw [this]

/-- Witness for C10 at concrete inputs: `sanitizeInput` strips `\x00` but is
the identity on "ok", via the theorem's last conjunct. -/
theorem sanitizeInput_idempotent_and_selective_witness :
    sanitizeInput "ok" = "ok" :=
  (sanitizeInput_idempotent_and_selective "ok").2.2.2 (by decide)

/-- C9: for every security configuration, a command containing `../` or
`..\` is rejected by `validateCommand` — directory traversal is screened
unconditionally, before any configuration-dependent check can accept. -/
theorem validateCommand_rejects_traversal (cfg : SecurityConfig) (command : String)
    (h : strIncludes command "../" = true ∨ strIncludes command "..\\" = true) :
    (validateCommand cfg command).valid = false := by
  unfold validateCommand
  cases hfind : (if cfg.allowShellOperators then none
      else dangerousOperators.find? (fun op => strIncludes command op)) with
  | some op => simp
  | none =>
    rcases h with h | h <;> simp [h]

/-- Witness for C9: even with all permissive flags set, a traversal command
is rejected. -/
theorem validateCommand_rejects_traversal_witness :
    (validateCommand ⟨none, none, true, true, true, some 300⟩
      "cat ../etc/passwd").valid = false :=
  validateCommand_rejects_traversal _ _ (Or.inl (by decide))

/-- C8: `startSession` always spawns with the argument list being exactly the
configured startup arguments followed by the extra arguments, as a discrete
list with `shell: false` — in the simple manager unconditionally, and in the
enhanced manager whenever a spawn happens at all (a validation throw spawns
nothing). -/
theorem startSession_spawns_discrete_args (config : ReplConfig) (st : ManagerState)
    (args : List String) (now : Nat) (cv : CmdValidator)
    (cvArg : String → String → Except String Unit) (cfg : ReplConfigE)
    (stE : ManagerStateE) (argsE : List String) (nowE : Nat) (dies : Bool) :
    (startSession config st args now).effects =
      [ProcEffect.spawn config.command (config.args.getD [] ++ args) false]
    ∧ ((startSessionE cv cvArg cfg stE argsE nowE dies).2.2 = []
      ∨ (startSessionE cv cvArg cfg stE argsE nowE dies).2.2 =
          [ProcEffect.spawn cfg.command (cfg.startArgs.getD [] ++ argsE) false]) := by
  constructor
  · rfl
  · cases hcv : cv cfg.command with
    | error e => left; simp [startSessionE, hcv]
    | ok u =>
      cases hval : validateArgsLoop cvArg (cfg.startArgs.getD [] ++ argsE) 0 with
      | error e => left; simp [startSessionE, hcv, hval]
      | ok v =>
        right
        cases dies <;> simp [startSessionE, hcv, hval]

/-- C1: when the validation gate rejects the command text of a `send` against
an existing active session, the call fails carrying the rejection reason, no
write reaches the process, and the registry is untouched; a write effect is
only ever produced when validation accepts. The same discipline holds in the
enhanced manager, where the thrown `SecurityError` reason is surfaced. -/
theorem sendCommand_rejected_never_writes (secCfg : SecurityConfig)
    (st : ManagerState) (sessionId command : String) (now : Nat)
    (session : ReplSession)
    (hfound : mapGet st.sessions sessionId = some session)
    (hactive : session.isActive = true)
    (hreject : (validateCommand secCfg command).valid = false) :
    ((sendCommand secCfg st sessionId command now).result.success = false
      ∧ (sendCommand secCfg st sessionId command now).result.error =
          some ("Security validation failed: " ++
            (validateCommand secCfg command).reason.getD "undefined")
      ∧ (sendCommand secCfg st sessionId command now).effects = []
      ∧ (sendCommand secCfg st sessionId command now).state = st)
    ∧ (∀ (c : SecurityConfig) (s : ManagerState) (i t : String) (n : Nat),
        (sendCommand c s i t n).effects ≠ [] → (validateCommand c t).valid = true)
    ∧ (∀ (cv : CmdValidator) (s : ManagerStateE) (i t reason : String)
        (sess : SessionE), getActiveSession s i = Except.ok sess →
        cv t = Except.error reason →
        sendCommandE cv s i t = Except.error reason) := by
  refine ⟨?_, ?_, ?_⟩
  · have hact' : session.isActive = false ↔ False := by simp [hactive]
    simp [sendCommand, hfound, hactive, hreject]
  · intro c s i t n hne
    unfold sendCommand at hne
    cases h : mapGet s.sessions i with
    | none => rw [h] at hne; simp at hne
    | some sess =>
      rw [h] at hne
      by_cases h1 : sess.isActive = false
      · simp [h1] at hne
      · simp only [h1, if_false] at hne
        by_cases h2 : (validateCommand c t).valid = false
        · simp [h2] at hne
        · simpa using h2
  · intro cv s i t reason sess hga hcv
    simp [sendCommandE, hga, hcv]

/-- Witness for C1 at concrete inputs: the default configuration rejects
`a && b`, so the send fails with no effects and unchanged state. -/
theorem sendCommand_rejected_never_writes_witness :
    (sendCommand {} ⟨[("s1", ⟨"s1", 1, true, 0⟩)], 1⟩ "s1" "a && b" 7).effects = []
    ∧ (sendCommand {} ⟨[("s1", ⟨"s1", 1, true, 0⟩)], 1⟩ "s1" "a && b" 7).result.success
      = false :=
  let h := sendCommand_rejected_never_writes {} ⟨[("s1", ⟨"s1", 1, true, 0⟩)], 1⟩
    "s1" "a && b" 7 ⟨"s1", 1, true, 0⟩ (by decide) rfl (by decide)
  ⟨h.1.2.2.1, h.1.1⟩

/-- C6 counterexample: in the simple manager the "session not found" and
"session not active" conditions are *not* distinguishable — an inactive
session and an absent session produce the identical error value. -/
theorem notFound_notActive_conflated_cex :
    (sendCommand {} ⟨[("s1", ⟨"s1", 1, false, 0⟩)], 1⟩ "s1" "x" 0).result.error
      = some "Session not found or inactive"
    ∧ (sendCommand {} ⟨[("s1", ⟨"s1", 1, false, 0⟩)], 1⟩ "nope" "x" 0).result.error
      = some "Session not found or inactive"
    ∧ (sendCommand {} ⟨[("s1", ⟨"s1", 1, false, 0⟩)], 1⟩ "s1" "x" 0).result.error
      = (sendCommand {} ⟨[("s1", ⟨"s1", 1, false, 0⟩)], 1⟩ "nope" "x" 0).result.error := by
  refine ⟨by decide, by decide, by decide⟩

/-- C6 (amended): the enhanced manager's `getActiveSession` distinguishes the
two conditions with distinct error strings and touches nothing, while the
simple manager returns one conflated error for both conditions, also with no
effects and no state change. -/
theorem notFound_notActive_errors (st : ManagerStateE) (sessionId : String)
    (session : SessionE) (secCfg : SecurityConfig) (stS : ManagerState)
    (idS command : String) (now : Nat) :
    (mapGet st.sessions sessionId = none →
      getActiveSession st sessionId =
        Except.error ("Session not found: " ++ sessionId))
    ∧ (mapGet st.sessions sessionId = some session → session.isActive = false →
      getActiveSession st sessionId =
        Except.error ("Session is not active: " ++ sessionId))
    ∧ ("Session not found: " ++ sessionId) ≠ ("Session is not active: " ++ sessionId)
    ∧ ((mapGet stS.sessions idS = none ∨
        (∃ s, mapGet stS.sessions idS = some s ∧ s.isActive = false)) →
      (sendCommand secCfg stS idS command now).result.error =
          some "Session not found or inactive"
        ∧ (sendCommand secCfg stS idS command now).effects = []
        ∧ (sendCommand secCfg stS idS command now).state = stS
        ∧ (receiveOutput stS idS none [] now).1 =
          some { success := false, stdout := "", stderr := "",
                 error := some "Session not found or inactive" }
        ∧ (receiveOutput stS idS none [] now).2 = stS) := by
  refine ⟨?_, ?_, ?_, ?_⟩
  · intro h; simp [getActiveSession, h]
  · intro h ha; simp [getActiveSession, h, ha]
  · intro h
    have hlen := congrArg (fun s => s.data.length) h
    simp [String.data_append] at hlen
  · intro h
    rcases h with h | ⟨s, hs, hina⟩
    · simp [sendCommand, receiveOutput, h]
    · simp [sendCommand, receiveOutput, hs, hina]

/-- Witness for C6 (amended): enhanced-manager errors at concrete states. -/
theorem notFound_notActive_errors_witness :
    getActiveSession ⟨[("s1", ⟨"s1", 1, false, true, 0⟩)], 1⟩ "s1"
      = Except.error ("Session is not active: " ++ "s1")
    ∧ getActiveSession ⟨[("s1", ⟨"s1", 1, false, true, 0⟩)], 1⟩ "zz"
      = Except.error ("Session not found: " ++ "zz") :=
  let h1 := notFound_notActive_errors ⟨[("s1", ⟨"s1", 1, false, true, 0⟩)], 1⟩ "s1"
    ⟨"s1", 1, false, true, 0⟩ {} ⟨[], 0⟩ "y" "c" 0
  let h2 := notFound_notActive_errors ⟨[("s1", ⟨"s1", 1, false, true, 0⟩)], 1⟩ "zz"
    ⟨"s1", 1, false, true, 0⟩ {} ⟨[], 0⟩ "y" "c" 0
  ⟨by rw [h1.2.1 (by decide) rfl], by rw [h2.1 (by decide)]⟩

/-- C4 counterexample: the simple receive collector tests only the incoming
chunk, so the marker `DONE` split across the chunks `DO` and `NE` is *not*
detected even though the accumulated buffer contains it. -/
theorem marker_split_missed_cex :
    (scRun (some "DONE") [SEvent.out "DO", SEvent.out "NE"] {} none).2 = none
    ∧ strIncludes
        (scRun (some "DONE") [SEvent.out "DO", SEvent.out "NE"] {} none).1.stdout
        "DONE" = true := by
  refine ⟨by decide, by decide⟩

/-- C5 counterexample: the simple collector's timeout path returns a result
while both stream listeners are still attached — completion does not always
detach the listeners. -/
theorem listener_leak_cex :
    ((scRun none [SEvent.timerFire] {} none).2).isSome = true
    ∧ (scRun none [SEvent.timerFire] {} none).1.stdoutAttached = true
    ∧ (scRun none [SEvent.timerFire] {} none).1.stderrAttached = true := by
  refine ⟨by decide, by decide, by decide⟩

theorem scRun_append (m : Option String) (es1 es2 : List SEvent) (st : SCState)
    (res : Option CommandResult) :
    scRun m (es1 ++ es2) st res =
      scRun m es2 (scRun m es1 st res).1 (scRun m es1 st res).2 := by
  induction es1 generalizing st res with
  | nil => rfl
  | cons e rest ih => simp [scRun, ih]

theorem scRun_some (m : Option String) (es : List SEvent) (st : SCState)
    (r : CommandResult) : (scRun m es st (some r)).2 = some r := by
  induction es generalizing st with
  | nil => rfl
  | cons e rest ih => simp [scRun, ih]

theorem scStep_none (m : Option String) (st : SCState) (e : SEvent)
    (h0 : st.isResolved = false) (h1 : st.timerActive = true)
    (h : (scStep m st e).2 = none) :
    (scStep m st e).1.isResolved = false ∧ (scStep m st e).1.timerActive = true ∧
    (scStep m st e).1.stdoutAttached = st.stdoutAttached ∧
    (scStep m st e).1.stderrAttached = st.stderrAttached := by
  cases e <;> simp only [scStep] at h ⊢ <;> split_ifs at h ⊢ <;> simp_all

theorem scRun_none_state (m : Option String) (es : List SEvent) (st : SCState)
    (h0 : st.isResolved = false) (h1 : st.timerActive = true)
    (h2 : (scRun m es st none).2 = none) :
    (scRun m es st none).1.isResolved = false ∧
    (scRun m es st none).1.timerActive = true := by
  induction es generalizing st with
  | nil => simpa [scRun] using ⟨h0, h1⟩
  | cons e rest ih =>
    simp only [scRun, Option.none_orElse] at h2 ⊢
    cases hp : (scStep m st e).2 with
    | some r =>
      rw [hp] at h2
      rw [scRun_some] at h2
      exact absurd h2 (by simp)
    | none =>
      rw [hp] at h2
      have hstep := scStep_none m st e h0 h1 hp
      exact ih (scStep m st e).1 hstep.1 hstep.2.1 h2

theorem ecRun_append (m : Option String) (t : Nat) (es1 es2 : List REvent)
    (st : ECState) (res : Option (Except String ReplResult)) :
    ecRun m t (es1 ++ es2) st res =
      ecRun m t es2 (ecRun m t es1 st res).1 (ecRun m t es1 st res).2 := by
  induction es1 generalizing st res with
  | nil => rfl
  | cons e rest ih =>
    cases e with
    | inner e' => simp [ecRun, ih]
    | outerTimerFire => simp [ecRun, ih]

theorem ecRun_some (m : Option String) (t : Nat) (es : List REvent) (st : ECState)
    (r : Except String ReplResult) : (ecRun m t es st (some r)).2 = some r := by
  induction es generalizing st with
  | nil => rfl
  | cons e rest ih =>
    cases e with
    | inner e' => simp [ecRun, ih]
    | outerTimerFire => simp [ecRun, ih]

theorem ecStep_none (m : Option String) (st : ECState) (e : EEvent)
    (h0 : st.resolved = false)
    (h : (ecStep m st e).2 = none) :
    (ecStep m st e).1.resolved = false ∧
    (ecStep m st e).1.dataAttached = st.dataAttached ∧
    (ecStep m st e).1.errorAttached = st.errorAttached ∧
    (ecStep m st e).1.closeAttached = st.closeAttached := by
  cases e with
  | out s => simp only [ecStep] at h ⊢ <;> split_ifs at h ⊢ <;> simp_all
  | err s => simp only [ecStep] at h ⊢ <;> split_ifs at h ⊢ <;> simp_all
  | procClose code => simp only [ecStep] at h ⊢ <;> split_ifs at h ⊢ <;> simp_all
  | fixedTimerFire =>
    cases m with
    | some mk => simp [ecStep, h0]
    | none => simp only [ecStep] at h ⊢ <;> split_ifs at h ⊢ <;> simp_all

theorem ecRun_none_state (m : Option String) (t : Nat) (es : List REvent)
    (st : ECState) (h0 : st.resolved = false)
    (h2 : (ecRun m t es st none).2 = none) :
    (ecRun m t es st none).1.resolved = false := by
  induction es generalizing st with
  | nil => simpa [ecRun] using h0
  | cons e rest ih =>
    cases e with
    | inner e' =>
      simp only [ecRun, Option.none_orElse] at h2 ⊢
      cases hp : (ecStep m st e').2 with
      | some r =>
        rw [hp] at h2
        have h2' : (ecRun m t rest (ecStep m st e').1 (some (Except.ok r))).2 = none := h2
        rw [ecRun_some] at h2'
        exact absurd h2' (by simp)
      | none =>
        rw [hp] at h2
        have h2' : (ecRun m t rest (ecStep m st e').1 none).2 = none := h2
        exact ih (ecStep m st e').1 (ecStep_none m st e' h0 hp).1 h2'
    | outerTimerFire =>
      simp only [ecRun, Option.none_orElse] at h2
      rw [ecRun_some] at h2
      exact absurd h2 (by simp)

/-- C2 counterexample: in the enhanced manager a `receive` with an end marker
whose timeout elapses before the marker appears rejects with a
`TimeoutError` — timeout expiry *is* surfaced to the caller as an error, and
the accumulated output is lost. -/
theorem receive_timeout_error_cex :
    receiveOutputE ⟨[("s1", ⟨"s1", 1, true, true, 0⟩)], 1⟩ "s1" 10000
        (some "DONE") [REvent.outerTimerFire]
      = some (Except.error "REPL output timeout after 10000ms") := by
  rfl

/-- C2 (amended): in the simple manager, timeout expiry resolves the receive
as a success carrying whatever was accumulated. In the enhanced manager the
fixed no-marker timer likewise yields success with the accumulated output,
but when the `withTimeout` timer fires before the collector has resolved the
call surfaces a `TimeoutError` to the caller. -/
theorem receive_timeout_behaviour
    (st : ManagerState) (sessionId : String) (session : ReplSession)
    (m : Option String) (es : List SEvent) (now : Nat)
    (hfound : mapGet st.sessions sessionId = some session)
    (hactive : session.isActive = true)
    (hnores : (scRun m es {} none).2 = none)
    (stE : ManagerStateE) (idE : String) (sessE : SessionE) (tMs : Nat)
    (mE : Option String) (esE : List REvent)
    (hgaE : getActiveSession stE idE = Except.ok sessE)
    (hnoresE : (ecRun mE tMs esE {} none).2 = none) :
    ((receiveOutput st sessionId m (es ++ [SEvent.timerFire]) now).1 =
      some { success := true,
             stdout := jsTrim (scRun m es {} none).1.stdout,
             stderr := jsTrim (scRun m es {} none).1.stderr })
    ∧ (receiveOutputE stE idE tMs mE (esE ++ [REvent.outerTimerFire]) =
        some (Except.error ("REPL output timeout after " ++ natToStr tMs ++ "ms")))
    ∧ (mE = none →
        receiveOutputE stE idE tMs none (esE ++ [REvent.inner EEvent.fixedTimerFire]) =
          some (Except.ok { output := jsTrim (ecRun none tMs esE {} none).1.stdout,
                            error := trimOrNone (ecRun none tMs esE {} none).1.stderr,
                            success := true })) := by
  refine ⟨?_, ?_, ?_⟩
  · have hinv := scRun_none_state m es {} rfl rfl hnores
    simp only [receiveOutput, hfound, hactive, Bool.true_eq_false, if_false]
    rw [scRun_append]
    rw [hnores]
    simp [scRun, scStep, hinv.1, hinv.2]
  · simp only [receiveOutputE, hgaE]
    rw [ecRun_append, hnoresE]
    simp [ecRun]
  · intro hm
    subst hm
    have hinv := ecRun_none_state none tMs esE {} rfl hnoresE
    simp only [receiveOutputE, hgaE]
    rw [ecRun_append, hnoresE]
    simp [ecRun, ecStep, hinv]

/-- Witness for C2 (amended) at concrete inputs: an accumulated chunk is
returned as success when the simple receive times out. -/
theorem receive_timeout_behaviour_witness :
    (receiveOutput ⟨[("s1", ⟨"s1", 1, true, 0⟩)], 1⟩ "s1" none
        ([SEvent.out "hi"] ++ [SEvent.timerFire]) 0).1 =
      some { success := true,
             stdout := jsTrim (scRun none [SEvent.out "hi"] {} none).1.stdout,
             stderr := jsTrim (scRun none [SEvent.out "hi"] {} none).1.stderr } :=
  (receive_timeout_behaviour ⟨[("s1", ⟨"s1", 1, true, 0⟩)], 1⟩ "s1" ⟨"s1", 1, true, 0⟩
    none [SEvent.out "hi"] 0 (by decide) rfl (by decide)
    ⟨[("s1", ⟨"s1", 1, true, true, 0⟩)], 1⟩ "s1" ⟨"s1", 1, true, true, 0⟩ 500
    (some "X") [] rfl rfl).1

/-- C4 (amended): the enhanced collector's `checkEndCondition` tests the
accumulated stdout buffer after each chunk and returns success immediately —
so a marker split across chunks is detected there — while the simple
collector tests only the incoming chunk, so a chunk that does not itself
contain the marker never resolves the call. -/
theorem marker_checked_on_buffer (m chunk : String) (st : ECState)
    (h0 : st.resolved = false) (hA : st.dataAttached = true)
    (hhit : strIncludes (st.stdout ++ chunk) m = true)
    (stS : SCState) (mS chunkS : String)
    (hmiss : strIncludes chunkS mS = false) :
    (ecStep (some m) st (EEvent.out chunk)).2 =
      some { output := jsTrim (st.stdout ++ chunk), error := trimOrNone st.stderr,
             success := true }
    ∧ (scStep (some mS) stS (SEvent.out chunkS)).2 = none := by
  constructor
  · simp [ecStep, hA, h0, hhit]
  · by_cases hat : stS.stdoutAttached = true
    · simp [scStep, hat, hmiss]
    · simp only [Bool.not_eq_true] at hat
      simp [scStep, hat]

/-- Witness for C4 (amended): the marker `DONE` split into `DO` then `NE` is
detected by the enhanced collector at the second chunk. -/
theorem marker_checked_on_buffer_witness :
    (ecStep (some "DONE") { stdout := "DO" } (EEvent.out "NE")).2 =
      some { output := jsTrim ("DO" ++ "NE"), error := trimOrNone "",
             success := true } :=
  (marker_checked_on_buffer "DONE" "NE" { stdout := "DO" } rfl rfl (by decide)
    {} "DONE" "NE" (by decide)).1

/-- C5 (amended): each receive call attaches one listener pair (one triple in
the enhanced collector) and the simple marker path and enhanced fixed-timer
path detach on completion, but the simple timeout path and the enhanced
marker-found and process-close paths return their result with every listener
still attached, so stale listeners can accumulate across receive calls. -/
theorem listener_detach_paths (mS : Option String) (stS : SCState)
    (stE : ECState) (s mk : String) (code : Int) :
    (({} : SCState).stdoutAttached = true ∧ ({} : SCState).stderrAttached = true
      ∧ ({} : ECState).dataAttached = true ∧ ({} : ECState).errorAttached = true
      ∧ ({} : ECState).closeAttached = true)
    ∧ (stS.isResolved = false → stS.stdoutAttached = true →
        strIncludes s mk = true →
        (scStep (some mk) stS (SEvent.out s)).1.stdoutAttached = false
        ∧ (scStep (some mk) stS (SEvent.out s)).1.stderrAttached = false
        ∧ ((scStep (some mk) stS (SEvent.out s)).2).isSome = true)
    ∧ (stS.isResolved = false → stS.timerActive = true →
        ((scStep mS stS SEvent.timerFire).2).isSome = true
        ∧ (scStep mS stS SEvent.timerFire).1.stdoutAttached = stS.stdoutAttached
        ∧ (scStep mS stS SEvent.timerFire).1.stderrAttached = stS.stderrAttached)
    ∧ (stE.resolved = false →
        ((ecStep none stE EEvent.fixedTimerFire).2).isSome = true
        ∧ (ecStep none stE EEvent.fixedTimerFire).1.dataAttached = false
        ∧ (ecStep none stE EEvent.fixedTimerFire).1.errorAttached = false
        ∧ (ecStep none stE EEvent.fixedTimerFire).1.closeAttached = false)
    ∧ (stE.resolved = false → stE.dataAttached = true →
        strIncludes (stE.stdout ++ s) mk = true →
        ((ecStep (some mk) stE (EEvent.out s)).2).isSome = true
        ∧ (ecStep (some mk) stE (EEvent.out s)).1.dataAttached = stE.dataAttached
        ∧ (ecStep (some mk) stE (EEvent.out s)).1.errorAttached = stE.errorAttached
        ∧ (ecStep (some mk) stE (EEvent.out s)).1.closeAttached = stE.closeAttached)
    ∧ (stE.resolved = false → stE.closeAttached = true →
        ((ecStep mS stE (EEvent.procClose code)).2).isSome = true
        ∧ (ecStep mS stE (EEvent.procClose code)).1.dataAttached = stE.dataAttached
        ∧ (ecStep mS stE (EEvent.procClose code)).1.errorAttached = stE.errorAttached
        ∧ (ecStep mS stE (EEvent.procClose code)).1.closeAttached = stE.closeAttached) := by
  refine ⟨⟨rfl, rfl, rfl, rfl, rfl⟩, ?_, ?_, ?_, ?_, ?_⟩
  · intro h0 hA hhit
    simp [scStep, h0, hA, hhit]
  · intro h0 h1
    simp [scStep, h0, h1]
  · intro h0
    simp [ecStep, h0]
  · intro h0 hA hhit
    simp [ecStep, h0, hA, hhit]
  · intro h0 hC
    simp [ecStep, h0, hC]

/-- Witness for C5 (amended): concrete timeout-path completion keeps both
simple-collector listeners attached. -/
theorem listener_detach_paths_witness :
    ((scStep none {} SEvent.timerFire).2).isSome = true
    ∧ (scStep none {} SEvent.timerFire).1.stdoutAttached = true :=
  let h := (listener_detach_paths none {} {} "a" "b" 0).2.2.1 rfl rfl
  ⟨h.1, by rw [h.2.1]⟩

theorem mapGet_mapDelete_self {α : Type} (m : List (String × α)) (k : String) :
    mapGet (mapDelete m k) k = none := by
  induction m with
  | nil => rfl
  | cons e t ih =>
    by_cases hk : e.1 == k
    · have : (e.1 != k) = false := by simp [bne]; simpa using hk
      simpa [mapDelete, List.filter, this] using ih
    · have hne : (e.1 != k) = true := by simp [bne]; simpa using hk
      simp only [mapDelete, List.filter, hne] at ih ⊢
      simpa [mapGet, List.find?, hk] using ih

theorem sendCommandE_ok_shape (cv : CmdValidator) (st : ManagerStateE)
    (sessionId cmd : String) (effs : List ProcEffect)
    (h : sendCommandE cv st sessionId cmd = Except.ok effs) :
    ∃ pid, effs = [ProcEffect.write pid (cmd ++ "\n")] := by
  unfold sendCommandE at h
  cases hga : getActiveSession st sessionId with
  | error e => rw [hga] at h; simp at h
  | ok session =>
    rw [hga] at h
    cases hcv : cv cmd with
    | error e => rw [hcv] at h; simp at h
    | ok u =>
      rw [hcv] at h
      by_cases hstdin : session.stdinAvailable = false
      · simp [hstdin] at h
      · simp only [hstdin, if_false] at h
        exact ⟨session.processId, by simpa using h.symm⟩

theorem sendEndCommands_writes (cv : CmdValidator) (st : ManagerStateE)
    (sessionId : String) (cmds : List String) :
    ∀ e ∈ (sendEndCommands cv st sessionId cmds).1,
      ∃ pid txt, e = ProcEffect.write pid txt := by
  induction cmds with
  | nil => intro e he; simp [sendEndCommands] at he
  | cons c rest ih =>
    intro e he
    simp only [sendEndCommands] at he
    cases hs : sendCommandE cv st sessionId c with
    | error msg => rw [hs] at he; simp at he
    | ok effs =>
      rw [hs] at he
      simp only [List.mem_append] at he
      rcases he with he | he
      · obtain ⟨pid, hpid⟩ := sendCommandE_ok_shape cv st sessionId c effs hs
        subst hpid
        simp at he
        exact ⟨pid, c ++ "\n", he⟩
      · exact ih e he

/-- C3 counterexample: with an active session and a shutdown command the
validation gate rejects, `closeSession` produces *no* process effect at all —
in particular the forced-kill step does not run (the exception jumps from
the sending loop over the kill logic) — even though the session is removed
from the map. -/
theorem close_shutdown_failure_skips_kill_cex :
    mapGet (⟨[("s1", ⟨"s1", 1, true, true, 0⟩)], 1⟩ : ManagerStateE).sessions "s1"
      = some ⟨"s1", 1, true, true, 0⟩
    ∧ (closeSessionE
        (fun c => if c == "exit()" then Except.error "Dangerous pattern" else Except.ok ())
        ⟨"python", none, none, some ["exit()"], none⟩
        ⟨[("s1", ⟨"s1", 1, true, true, 0⟩)], 1⟩ "s1" [] true).2 = []
    ∧ mapGet (closeSessionE
        (fun c => if c == "exit()" then Except.error "Dangerous pattern" else Except.ok ())
        ⟨"python", none, none, some ["exit()"], none⟩
        ⟨[("s1", ⟨"s1", 1, true, true, 0⟩)], 1⟩ "s1" [] true).1.sessions "s1" = none := by
  refine ⟨by decide, by decide, by decide⟩

/-- C3 (amended): `closeSession` always removes the session from the map —
the `finally` block runs on every path, so the id disappears from the active
list even when every shutdown-phase command fails — but when a
shutdown-phase command throws, the forced-kill step is *skipped* (no kill
effect is issued), because the stdin-close and kill logic sit inside the
same `try` block. In the simple manager, `closeSession` on an existing
session likewise succeeds and removes it. -/
theorem close_always_removes_session (cv : CmdValidator) (cfg : ReplConfigE)
    (st : ManagerStateE) (sessionId : String) (args : List String)
    (exits : Bool) (session : SessionE)
    (hfound : mapGet st.sessions sessionId = some session) :
    (mapGet (closeSessionE cv cfg st sessionId args exits).1.sessions sessionId = none)
    ∧ (sessionId ∉ getActiveSessionsE (closeSessionE cv cfg st sessionId args exits).1)
    ∧ ((sendEndCommands cv st sessionId (cfg.endArgs.getD [] ++ args)).2 = true →
        ∀ pid sig, ProcEffect.kill pid sig ∉
          (closeSessionE cv cfg st sessionId args exits).2)
    ∧ (∀ (stS : ManagerState) (idS : String) (sS : ReplSession),
        mapGet stS.sessions idS = some sS →
        (closeSession stS idS).result.success = true
        ∧ mapGet (closeSession stS idS).state.sessions idS = none) := by
  have hdel : ∀ c : Nat, mapGet (mapDelete st.sessions sessionId) sessionId = none :=
    fun _ => mapGet_mapDelete_self st.sessions sessionId
  have hstate : (closeSessionE cv cfg st sessionId args exits).1.sessions
      = mapDelete st.sessions sessionId := by
    simp only [closeSessionE, hfound]
    split <;> first
      | rfl
      | (split <;> rfl)
  refine ⟨?_, ?_, ?_, ?_⟩
  · rw [hstate]; exact mapGet_mapDelete_self st.sessions sessionId
  · rw [getActiveSessionsE, hstate]
    intro hmem
    simp only [List.mem_map, List.mem_filter] at hmem
    obtain ⟨e, ⟨hemem, _⟩, hekey⟩ := hmem
    simp only [mapDelete, List.mem_filter] at hemem
    have := hemem.2
    rw [hekey] at this
    simp at this
  · intro hfail pid sig hmem
    have hlen : (cfg.endArgs.getD [] ++ args).length > 0 := by
      by_contra hlen
      have : (cfg.endArgs.getD [] ++ args) = [] := by
        cases h : (cfg.endArgs.getD [] ++ args) with
        | nil => rfl
        | cons a t => rw [h] at hlen; simp at hlen
      rw [this] at hfail
      simp [sendEndCommands] at hfail
    have heffs : (closeSessionE cv cfg st sessionId args exits).2
        = (sendEndCommands cv st sessionId (cfg.endArgs.getD [] ++ args)).1 := by
      unfold closeSessionE
      rw [hfound]
      simp only [hlen, if_true, hfail, if_true]
    rw [heffs] at hmem
    obtain ⟨pid', txt', habs⟩ :=
      sendEndCommands_writes cv st sessionId (cfg.endArgs.getD [] ++ args) _ hmem
    exact ProcEffect.noConfusion habs
  · intro stS idS sS hS
    constructor
    · simp [closeSession, hS]
    · simp only [closeSession, hS]
      exact mapGet_mapDelete_self stS.sessions idS

/-- Witness for C3 (amended) at a concrete state: the session disappears from
the map even when the single shutdown command is rejected. -/
theorem close_always_removes_session_witness :
    mapGet (closeSessionE
        (fun _ => Except.error "blocked")
        ⟨"python", none, none, some ["quit"], none⟩
        ⟨[("s2", ⟨"s2", 2, true, true, 0⟩)], 2⟩ "s2" [] false).1.sessions "s2" = none :=
  (close_always_removes_session (fun _ => Except.error "blocked")
    ⟨"python", none, none, some ["quit"], none⟩
    ⟨[("s2", ⟨"s2", 2, true, true, 0⟩)], 2⟩ "s2" [] false
    ⟨"s2", 2, true, true, 0⟩ (by decide)).1

theorem natToStrAux_fuel : ∀ (n f1 f2 : Nat), n < f1 → n < f2 →
    natToStrAux f1 n = natToStrAux f2 n := by
  intro n
  induction n using Nat.strong_induction_on with
  | _ n ih =>
    intro f1 f2 h1 h2
    cases f1 with
    | zero => omega
    | succ fa =>
      cases f2 with
      | zero => omega
      | succ fb =>
        simp only [natToStrAux]
        by_cases h10 : n < 10
        · simp [h10]
        · simp only [h10, if_false]
          have hdiv : n / 10 < n := Nat.div_lt_self (by omega) (by omega)
          rw [ih (n / 10) hdiv fa fb (by omega) (by omega)]

theorem natChars_eq (n : Nat) :
    natChars n = if n < 10 then [digitChar n]
      else natChars (n / 10) ++ [digitChar (n % 10)] := by
  show natToStrAux (n + 1) n = _
  simp only [natToStrAux]
  by_cases h10 : n < 10
  · simp [h10]
  · simp only [h10, if_false]
    have hdiv : n / 10 < n := Nat.div_lt_self (by omega) (by omega)
    rw [natToStrAux_fuel (n / 10) n (n / 10 + 1) hdiv (by omega)]
    rfl

theorem digitChar_lt_inj : ∀ a < 10, ∀ b < 10, digitChar a = digitChar b → a = b := by
  decide

theorem digitChar_ne_us : ∀ d < 10, digitChar d ≠ '_' := by decide

theorem natChars_ne_nil (n : Nat) : natChars n ≠ [] := by
  rw [natChars_eq]
  by_cases h10 : n < 10 <;> simp [h10]

theorem natChars_no_us : ∀ n : Nat, '_' ∉ natChars n := by
  intro n
  induction n using Nat.strong_induction_on with
  | _ n ih =>
    rw [natChars_eq]
    by_cases h10 : n < 10
    · simp only [h10, if_true, List.mem_singleton]
      exact fun h => digitChar_ne_us n h10 h.symm
    · simp only [h10, if_false, List.mem_append, List.mem_singleton]
      rintro (h | h)
      · exact ih (n / 10) (Nat.div_lt_self (by omega) (by omega)) h
      · exact digitChar_ne_us (n % 10) (Nat.mod_lt n (by omega)) h.symm

theorem natChars_inj : ∀ m n : Nat, natChars m = natChars n → m = n := by
  intro m
  induction m using Nat.strong_induction_on with
  | _ m ih =>
    intro n h
    rw [natChars_eq m, natChars_eq n] at h
    by_cases hm : m < 10 <;> by_cases hn : n < 10
    · rw [if_pos hm, if_pos hn] at h
      exact digitChar_lt_inj m hm n hn (List.cons.inj h).1
    · rw [if_pos hm, if_neg hn] at h
      have hlen := congrArg List.length h
      simp only [List.length_singleton, List.length_append] at hlen
      have hz : (natChars (n / 10)).length = 0 := by omega
      exact absurd (List.length_eq_zero.mp hz) (natChars_ne_nil (n / 10))
    · rw [if_neg hm, if_pos hn] at h
      have hlen := congrArg List.length h
      simp only [List.length_singleton, List.length_append] at hlen
      have hz : (natChars (m / 10)).length = 0 := by omega
      exact absurd (List.length_eq_zero.mp hz) (natChars_ne_nil (m / 10))
    · rw [if_neg hm, if_neg hn] at h
      have hrev := congrArg List.reverse h
      simp only [List.reverse_append, List.reverse_cons, List.reverse_nil,
        List.nil_append, List.singleton_append] at hrev
      obtain ⟨hhead, htail⟩ := List.cons.inj hrev
      have hmod : m % 10 = n % 10 :=
        digitChar_lt_inj (m % 10) (Nat.mod_lt m (by omega))
          (n % 10) (Nat.mod_lt n (by omega)) hhead
      have htails : natChars (m / 10) = natChars (n / 10) := by
        have := congrArg List.reverse htail
        simpa using this
      have hdiv : m / 10 = n / 10 :=
        ih (m / 10) (Nat.div_lt_self (by omega) (by omega)) (n / 10) htails
      omega

theorem underscore_split : ∀ (l1 l2 r1 r2 : List Char), '_' ∉ l1 → '_' ∉ l2 →
    l1 ++ '_' :: r1 = l2 ++ '_' :: r2 → l1 = l2 := by
  intro l1
  induction l1 with
  | nil =>
    intro l2 r1 r2 h1 h2 h
    cases l2 with
    | nil => rfl
    | cons c t =>
      simp only [List.nil_append, List.cons_append] at h
      have hc := (List.cons.inj h).1
      rw [← hc] at h2
      simp at h2
  | cons c t ih =>
    intro l2 r1 r2 h1 h2 h
    cases l2 with
    | nil =>
      simp only [List.cons_append, List.nil_append] at h
      have hc := (List.cons.inj h).1
      rw [hc] at h1
      simp at h1
    | cons d u =>
      simp only [List.cons_append] at h
      obtain ⟨hh, htl⟩ := List.cons.inj h
      have h1' : '_' ∉ t := fun hm => h1 (List.mem_cons_of_mem _ hm)
      have h2' : '_' ∉ u := fun hm => h2 (List.mem_cons_of_mem _ hm)
      rw [hh, ih u r1 r2 h1' h2' htl]

theorem mkSessionId_counter_inj (a x b y : Nat)
    (h : mkSessionId a x = mkSessionId b y) : a = b := by
  have hd := congrArg String.data h
  simp only [mkSessionId, natToStr, String.data_append] at hd
  have hd' : "session_".data ++ (natChars a ++ '_' :: natChars x)
      = "session_".data ++ (natChars b ++ '_' :: natChars y) := by
    simpa [List.append_assoc] using hd
  have hc := List.append_cancel_left hd'
  exact natChars_inj a b
    (underscore_split (natChars a) (natChars b) (natChars x) (natChars y)
      (natChars_no_us a) (natChars_no_us b) hc)

theorem mem_values_mapSet {α : Type} (m : List (String × α)) (k : String) (v : α) :
    v ∈ (mapSet m k v).map (fun e => e.2) := by
  unfold mapSet
  split
  · next hany =>
    rw [List.any_eq_true] at hany
    obtain ⟨e, he, hkey⟩ := hany
    refine List.mem_map.mpr ⟨(k, v), ?_, rfl⟩
    refine List.mem_map.mpr ⟨e, he, ?_⟩
    simp [hkey]
  · simp

theorem mem_listActive_insert (st : ManagerState) (k : String) (v : ReplSession)
    (hid : v.id = k) (hact : v.isActive = true) (c : Nat) :
    k ∈ listActiveSessions ⟨mapSet st.sessions k v, c⟩ := by
  refine List.mem_map.mpr ⟨v, ?_, hid⟩
  exact List.mem_filter.mpr ⟨mem_values_mapSet st.sessions k v, hact⟩

theorem startSession_preserves_ids (config : ReplConfig) (st : ManagerState)
    (args : List String) (now : Nat) (h : SessionIdsOk st) :
    SessionIdsOk (startSession config st args now).state := by
  obtain ⟨hpw, hbound⟩ := h
  have hfresh : st.sessions.any
      (fun e => e.1 == mkSessionId (st.sessionCounter + 1) now) = false := by
    by_contra hany
    simp only [Bool.not_eq_false] at hany
    rw [List.any_eq_true] at hany
    obtain ⟨e, he, hkey⟩ := hany
    obtain ⟨hk, k, t, hle, hid⟩ := hbound e he
    have hkeq : e.1 = mkSessionId (st.sessionCounter + 1) now := by simpa using hkey
    rw [hk, hid] at hkeq
    have := mkSessionId_counter_inj _ _ _ _ hkeq
    omega
  have hstate : (startSession config st args now).state =
      ⟨st.sessions ++ [(mkSessionId (st.sessionCounter + 1) now,
        ⟨mkSessionId (st.sessionCounter + 1) now, st.sessionCounter + 1, true, now⟩)],
       st.sessionCounter + 1⟩ := by
    simp [startSession, mapSet, hfresh]
  rw [hstate, SessionIdsOk]
  constructor
  · show ((st.sessions ++ [(mkSessionId (st.sessionCounter + 1) now,
        (⟨mkSessionId (st.sessionCounter + 1) now, st.sessionCounter + 1, true, now⟩
          : ReplSession))]).map
        (fun e => e.2.id)).Pairwise (fun a b => a ≠ b)
    rw [List.map_append, List.pairwise_append]
    refine ⟨hpw, by simp, ?_⟩
    intro a ha b hb
    simp only [List.map_cons, List.map_nil, List.mem_singleton] at hb
    subst hb
    rw [List.mem_map] at ha
    obtain ⟨e, he, hea⟩ := ha
    obtain ⟨_, k, t, hle, hid⟩ := hbound e he
    subst hea
    rw [hid]
    intro heq
    have := mkSessionId_counter_inj _ _ _ _ heq
    omega
  · intro e he
    show e.1 = e.2.id ∧ ∃ k t, k ≤ st.sessionCounter + 1 ∧ e.2.id = mkSessionId k t
    have he' : e ∈ st.sessions ++ [(mkSessionId (st.sessionCounter + 1) now,
        (⟨mkSessionId (st.sessionCounter + 1) now, st.sessionCounter + 1, true, now⟩
          : ReplSession))] := he
    rw [List.mem_append] at he'
    rcases he' with hel | hel
    · obtain ⟨hk, k, t, hle, hid⟩ := hbound e hel
      exact ⟨hk, k, t, by omega, hid⟩
    · simp only [List.mem_singleton] at hel
      subst hel
      exact ⟨rfl, st.sessionCounter + 1, now, le_refl _, rfl⟩

theorem runStarts_ids (config : ReplConfig) (inputs : List (List String × Nat))
    (st : ManagerState) (h : SessionIdsOk st) :
    SessionIdsOk (runStarts config inputs st) := by
  induction inputs generalizing st with
  | nil => exact h
  | cons p rest ih =>
    exact ih (startSession config st p.1 p.2).state
      (startSession_preserves_ids config st p.1 p.2 h)

/-- C7: every state reachable by a sequence of `startSession` calls carries
pairwise-distinct session ids (the id embeds the strictly increasing
counter), and immediately after a `startSession` — which always succeeds and
increments the counter — the returned id is listed by `listActiveSessions`. -/
theorem startSession_ids_distinct_and_listed (config : ReplConfig)
    (inputs : List (List String × Nat)) (st : ManagerState)
    (args : List String) (now : Nat) :
    (((runStarts config inputs ⟨[], 0⟩).sessions.map (fun e => e.2.id)).Pairwise
        (fun a b => a ≠ b))
    ∧ (startSession config st args now).result.success = true
    ∧ (startSession config st args now).result.sessionId
        = mkSessionId (st.sessionCounter + 1) now
    ∧ (startSession config st args now).state.sessionCounter = st.sessionCounter + 1
    ∧ (startSession config st args now).result.sessionId ∈
        listActiveSessions (startSession config st args now).state := by
  refine ⟨?_, rfl, rfl, rfl, ?_⟩
  · exact (runStarts_ids config inputs ⟨[], 0⟩ ⟨List.Pairwise.nil, by simp⟩).1
  · exact mem_listActive_insert st (mkSessionId (st.sessionCounter + 1) now)
      ⟨mkSessionId (st.sessionCounter + 1) now, st.sessionCounter + 1, true, now⟩
      rfl rfl (st.sessionCounter + 1)

end ShellMcp
